import Mathlib

/-!
Verification development for the healthy-India-backend repository.

The repository contains four revisions of a single Express `/analyze` handler
(two in `src/unnamed/part_000`, two in `src/server.js`).  Each revision runs
OCR on an uploaded image, calls a chat-completion API, strips markdown code
fences from the model reply, extracts a JSON block with the regex
`/\x7b[\s\S]*\x7d$/`, parses it with `JSON.parse`, and returns it.  One revision
adds Firebase bearer-token authentication and Mongo persistence.

Strings are modelled as `List Char`.  External effects (OCR, the chat
completion, token verification, the database write) are modelled as oracle
outcomes carried in the request value; the handler model records which of
them were invoked.  `JSON.parse` is modelled by an executable recursive
descent parser over the JSON fragment used by the application (numbers are
modelled as integers, `\u` escapes are not modelled).
-/

namespace HealthyIndia

/-- ECMAScript whitespace as used by `String.prototype.trim` and the regex
class `\s` (restricted to the ASCII range plus NBSP, which covers every
string the model manipulates). -/
def isJsWs (c : Char) : Bool :=
  c = ' ' ∨ c = '\t' ∨ c = '\n' ∨ c = '\r' ∨ c = '\x0b' ∨ c = '\x0c' ∨ c = '\xa0'

/-- Model of `String.prototype.trim`: drop whitespace from both ends. -/
def jsTrim (s : List Char) : List Char :=
  ((s.dropWhile isJsWs).reverse.dropWhile isJsWs).reverse

/-- Model of `.replace(/^(three backticks)json\s*/, "")`: if the string starts
with the seven characters of the json fence marker, remove them together with
the following whitespace run. -/
def stripLeadJsonFence (s : List Char) : List Char :=
  match s with
  | '\x60' :: '\x60' :: '\x60' :: 'j' :: 's' :: 'o' :: 'n' :: rest => rest.dropWhile isJsWs
  | t => t

/-- Model of the case-insensitive `.replace(/^(three backticks)json\s*/i, "")`
used by the authenticated revision (src/server.js line 157). -/
def stripLeadJsonFenceCI (s : List Char) : List Char :=
  match s with
  | '\x60' :: '\x60' :: '\x60' :: c1 :: c2 :: c3 :: c4 :: rest =>
    if c1.toLower = 'j' ∧ c2.toLower = 's' ∧ c3.toLower = 'o' ∧ c4.toLower = 'n' then
      rest.dropWhile isJsWs
    else
      '\x60' :: '\x60' :: '\x60' :: c1 :: c2 :: c3 :: c4 :: rest
  | t => t

/-- Model of `.replace(/^(three backticks)\s*/, "")`: strip a leading bare
fence marker and the following whitespace run. -/
def stripLeadBareFence (s : List Char) : List Char :=
  match s with
  | '\x60' :: '\x60' :: '\x60' :: rest => rest.dropWhile isJsWs
  | t => t

/-- Model of `.replace(/(three backticks)$/, "")`: strip a trailing bare fence
marker, if present. -/
def stripTrailFence (s : List Char) : List Char :=
  match s.reverse with
  | '\x60' :: '\x60' :: '\x60' :: restRev => restRev.reverse
  | _ => s

/-- Sanitizer of both `src/unnamed/part_000` revisions (lines 75-80 and
240-245): trim, strip a leading json fence, strip a leading bare fence, strip
a trailing fence, trim again. -/
def sanitizeV (raw : List Char) : List Char :=
  jsTrim (stripTrailFence (stripLeadBareFence (stripLeadJsonFence (jsTrim raw))))

/-- Sanitizer of the authenticated revision (src/server.js line 157):
case-insensitive json-fence strip, trailing-fence strip, then trim.  There is
no initial trim and no bare-fence strip. -/
def sanitizeS1 (raw : List Char) : List Char :=
  jsTrim (stripTrailFence (stripLeadJsonFenceCI raw))

/-- Sanitizer of the second server.js revision (src/server.js line 296):
json-fence strip, trailing-fence strip, then trim. -/
def sanitizeS2 (raw : List Char) : List Char :=
  jsTrim (stripTrailFence (stripLeadJsonFence raw))

/-- Model of `s.match(/\x7b[\s\S]*\x7d$/)`.  The regex engine scans for the
leftmost position where a brace-opened block ending with a closing brace at
the very end of the string can match; greediness makes the match run from the
first opening brace to the end of the string.  If the string does not end
with a closing brace no start position can succeed, so the whole match
fails. -/
def jsMatchBrace : List Char → Option (List Char)
  | [] => none
  | c :: rest =>
    if c = '\x7b' then
      if (c :: rest).getLast? = some '\x7d' then some (c :: rest) else none
    else
      jsMatchBrace rest

/-- JSON values of the fragment the application exchanges.  Numbers are
modelled as integers (the replies the prompt requests contain only integer
counts); fractional and exponent syntax is therefore not modelled. -/
inductive Json where
  | null : Json
  | bool (b : Bool) : Json
  | num (n : Int) : Json
  | str (s : List Char) : Json
  | arr (xs : List Json) : Json
  | obj (fields : List (List Char × Json)) : Json

/-- Whitespace accepted between JSON tokens by `JSON.parse`. -/
def isJsonWs (c : Char) : Bool :=
  c = ' ' ∨ c = '\t' ∨ c = '\n' ∨ c = '\r'

/-- Decode a single-character JSON string escape. -/
def escChar (c : Char) : Option Char :=
  if c = '"' then some '"'
  else if c = '\\' then some '\\'
  else if c = '/' then some '/'
  else if c = 'n' then some '\n'
  else if c = 't' then some '\t'
  else if c = 'r' then some '\r'
  else if c = 'b' then some '\x08'
  else if c = 'f' then some '\x0c'
  else none

/-- Parse the body of a JSON string literal (after the opening quote) up to
the closing quote, returning the decoded characters and the rest of the
input.  Unicode escapes are not modelled. -/
def parseStrBody : List Char → Option (List Char × List Char)
  | [] => none
  | '\\' :: rest =>
    match rest with
    | [] => none
    | e :: rest2 =>
      match escChar e with
      | none => none
      | some c => (parseStrBody rest2).map (fun p => (c :: p.1, p.2))
  | '"' :: rest => some ([], rest)
  | c :: rest => (parseStrBody rest).map (fun p => (c :: p.1, p.2))

/-- Parse a run of decimal digits into a natural number. -/
def parseNatNum (s : List Char) : Option (Nat × List Char) :=
  let ds := s.takeWhile Char.isDigit
  if ds = [] then none
  else some (ds.foldl (fun a c => a * 10 + (c.toNat - 48)) 0, s.dropWhile Char.isDigit)

/-- Parse a JSON integer, with optional leading minus sign. -/
def parseNum (s : List Char) : Option (Json × List Char) :=
  match s with
  | '-' :: rest => (parseNatNum rest).map (fun p => (Json.num (-(p.1 : Int)), p.2))
  | _ => (parseNatNum s).map (fun p => (Json.num (p.1 : Int), p.2))

mutual

/-- Fueled recursive-descent JSON value parser modelling `JSON.parse` on the
fragment described at `Json`. -/
def parseVal : Nat → List Char → Option (Json × List Char)
  | 0, _ => none
  | fuel + 1, s =>
    match s.dropWhile isJsonWs with
    | 'n' :: 'u' :: 'l' :: 'l' :: r => some (Json.null, r)
    | 't' :: 'r' :: 'u' :: 'e' :: r => some (Json.bool true, r)
    | 'f' :: 'a' :: 'l' :: 's' :: 'e' :: r => some (Json.bool false, r)
    | '"' :: r => (parseStrBody r).map (fun p => (Json.str p.1, p.2))
    | '\x7b' :: r =>
      (match r.dropWhile isJsonWs with
       | '\x7d' :: r2 => some (Json.obj [], r2)
       | _ => (parseMembers fuel r).map (fun p => (Json.obj p.1, p.2)))
    | '[' :: r =>
      (match r.dropWhile isJsonWs with
       | ']' :: r2 => some (Json.arr [], r2)
       | _ => (parseItems fuel r).map (fun p => (Json.arr p.1, p.2)))
    | t => parseNum t

/-- Parse one or more comma-separated `"key": value` members followed by the
closing brace of an object. -/
def parseMembers : Nat → List Char → Option (List (List Char × Json) × List Char)
  | 0, _ => none
  | fuel + 1, s =>
    match s.dropWhile isJsonWs with
    | '"' :: r =>
      (match parseStrBody r with
       | none => none
       | some (key, r2) =>
         match r2.dropWhile isJsonWs with
         | ':' :: r3 =>
           (match parseVal fuel r3 with
            | none => none
            | some (v, r4) =>
              match r4.dropWhile isJsonWs with
              | ',' :: r5 => (parseMembers fuel r5).map (fun p => ((key, v) :: p.1, p.2))
              | '\x7d' :: r5 => some ([(key, v)], r5)
              | _ => none)
         | _ => none)
    | _ => none

/-- Parse one or more comma-separated array items followed by the closing
bracket of an array. -/
def parseItems : Nat → List Char → Option (List Json × List Char)
  | 0, _ => none
  | fuel + 1, s =>
    match parseVal fuel s with
    | none => none
    | some (v, r) =>
      match r.dropWhile isJsonWs with
      | ',' :: r2 => (parseItems fuel r2).map (fun p => (v :: p.1, p.2))
      | ']' :: r2 => some ([v], r2)
      | _ => none

end

/-- Model of `JSON.parse`: parse one value and require only whitespace to
remain. -/
def jsonParse (s : List Char) : Option Json :=
  match parseVal (s.length + 1) s with
  | some (v, r) => if r.dropWhile isJsonWs = [] then some v else none
  | none => none

/-- Abbreviation turning a Lean string literal into the `List Char` model of
a JS string. -/
def toL (s : String) : List Char :=
  s.toList

/-! ## Handler models

Each `/analyze` revision is modelled as a total function from an abstract
request to a response paired with an effect record.  The body of the
handler's `try` block is modelled separately, returning `Except`: an
`Except.error` value is an exception thrown inside the `try` (a rejected
OCR or completion promise, the `TypeError` raised by indexing a `null`
match result, a `JSON.parse` throw, a rejected `doc.save()`), which the
surrounding `catch` converts into a 500 response. -/

/-- Body of an HTTP response: either an error object with an `error` string
or a JSON payload passed to `res.json`. -/
inductive RespBody where
  | errMsg (msg : List Char) : RespBody
  | jsonVal (v : Json) : RespBody

/-- An HTTP response: status code and JSON body. -/
structure Response where
  status : Nat
  body : RespBody

/-- A document persisted by the authenticated revision (the mongoose
`AnalysisResult` model, src/server.js lines 28-42): the schema-filtered
key-value pairs of the merged constructor object.  The `createdAt` default
timestamp is external clock state and not modelled (a `createdAt` key
present in the reply is stored); mongoose value casting is external and not
modelled. -/
structure SavedDoc where
  fields : List (List Char × Json)

/-- Which external steps of the pipeline ran for a request, and what was
persisted. -/
structure Eff where
  uploadChecked : Bool
  ocrCalled : Bool
  chatCalled : Bool
  saved : List SavedDoc

/-- Effect record of a request for which no pipeline step ran. -/
def effNone : Eff := ⟨false, false, false, []⟩

/-- Effect record after the upload check only. -/
def effUpload : Eff := ⟨true, false, false, []⟩

/-- Effect record after the upload check and the OCR call. -/
def effOcr : Eff := ⟨true, true, false, []⟩

/-- Effect record after upload check, OCR and the completion call, with
nothing persisted. -/
def effChat : Eff := ⟨true, true, true, []⟩

/-- A request to an unauthenticated `/analyze` revision.  The OCR and chat
outcomes are oracle values: `Except.error m` models the external promise
rejecting with message `m`, `Except.ok t` models it resolving with text
`t`. -/
structure ReqPlain where
  hasFile : Bool
  ocr : Except (List Char) (List Char)
  chat : Except (List Char) (List Char)

/-- Representative message of the SyntaxError thrown by `JSON.parse` on
invalid input. -/
def jsonThrowMsg : List Char := toL "SyntaxError: unexpected token in JSON"

/-- Representative message of the TypeError thrown when the non-null
assertion `raw.match(...)![0]` dereferences a `null` match result. -/
def typeErrorMsg : List Char := toL "TypeError: cannot index null match result"

/-- Try-block body of the first part_000 revision (src/unnamed/part_000
lines 33-103). -/
def analyzeV1Body (req : ReqPlain) : Except (List Char) Response × Eff :=
  if req.hasFile = false then
    (Except.ok ⟨400, RespBody.errMsg (toL "No image file provided.")⟩, effUpload)
  else
    match req.ocr with
    | Except.error m => (Except.error m, effOcr)
    | Except.ok _t =>
      match req.chat with
      | Except.error m => (Except.error m, effChat)
      | Except.ok raw =>
        match jsMatchBrace (sanitizeV raw) with
        | none =>
          (Except.ok ⟨400, RespBody.errMsg (toL "Invalid or missing JSON in DeepSeek response.")⟩,
            effChat)
        | some mtxt =>
          match jsonParse mtxt with
          | none =>
            (Except.ok ⟨500, RespBody.errMsg (toL "Failed to parse DeepSeek JSON response.")⟩,
              effChat)
          | some result => (Except.ok ⟨200, RespBody.jsonVal result⟩, effChat)

/-- The first part_000 revision of `/analyze`: the try body with its catch
block, which answers 500 with a fixed message. -/
def analyzeV1 (req : ReqPlain) : Response × Eff :=
  match analyzeV1Body req with
  | (Except.ok r, eff) => (r, eff)
  | (Except.error _m, eff) => (⟨500, RespBody.errMsg (toL "Server error during analysis.")⟩, eff)

/-- Try-block body of the second part_000 revision (src/unnamed/part_000
lines 143-270); identical control flow to the first, with different error
messages. -/
def analyzeV2Body (req : ReqPlain) : Except (List Char) Response × Eff :=
  if req.hasFile = false then
    (Except.ok ⟨400, RespBody.errMsg (toL "No image file provided.")⟩, effUpload)
  else
    match req.ocr with
    | Except.error m => (Except.error m, effOcr)
    | Except.ok _t =>
      match req.chat with
      | Except.error m => (Except.error m, effChat)
      | Except.ok raw =>
        match jsMatchBrace (sanitizeV raw) with
        | none =>
          (Except.ok ⟨400, RespBody.errMsg (toL "Invalid JSON in DeepSeek response.")⟩, effChat)
        | some mtxt =>
          match jsonParse mtxt with
          | none =>
            (Except.ok ⟨500, RespBody.errMsg (toL "Failed to parse JSON from DeepSeek.")⟩, effChat)
          | some result => (Except.ok ⟨200, RespBody.jsonVal result⟩, effChat)

/-- The second part_000 revision of `/analyze`. -/
def analyzeV2 (req : ReqPlain) : Response × Eff :=
  match analyzeV2Body req with
  | (Except.ok r, eff) => (r, eff)
  | (Except.error _m, eff) => (⟨500, RespBody.errMsg (toL "Server error during analysis.")⟩, eff)

/-- Try-block body of the second server.js revision (src/server.js lines
213-309).  Its `JSON.parse` call is not wrapped in an inner try, so a parse
failure is an exception handled by the outer catch. -/
def analyzeV4Body (req : ReqPlain) : Except (List Char) Response × Eff :=
  if req.hasFile = false then
    (Except.ok ⟨400, RespBody.errMsg (toL "No image file provided.")⟩, effUpload)
  else
    match req.ocr with
    | Except.error m => (Except.error m, effOcr)
    | Except.ok _t =>
      match req.chat with
      | Except.error m => (Except.error m, effChat)
      | Except.ok raw =>
        match jsMatchBrace (sanitizeS2 raw) with
        | none =>
          (Except.ok ⟨400, RespBody.errMsg (toL "Invalid JSON in LLM response.")⟩, effChat)
        | some mtxt =>
          match jsonParse mtxt with
          | none => (Except.error jsonThrowMsg, effChat)
          | some result => (Except.ok ⟨200, RespBody.jsonVal result⟩, effChat)

/-- The second server.js revision of `/analyze`. -/
def analyzeV4 (req : ReqPlain) : Response × Eff :=
  match analyzeV4Body req with
  | (Except.ok r, eff) => (r, eff)
  | (Except.error _m, eff) => (⟨500, RespBody.errMsg (toL "Server error during analysis.")⟩, eff)

/-! ### The authenticated revision (src/server.js lines 54-179) -/

/-- A request to the authenticated revision.  `verify` is the oracle for
`admin.auth().verifyIdToken`, returning the decoded uid and phone number on
success; `saveErr` is the oracle outcome of `doc.save()` (`some m` models a
rejection with message `m`); `nowMs` is the `Date.now()` value used for the
image reference. -/
structure ReqAuth where
  authorization : Option (List Char)
  verify : List Char → Except (List Char) (List Char × List Char)
  hasFile : Bool
  ocr : Except (List Char) (List Char)
  chat : Except (List Char) (List Char)
  latitude : Option (List Char)
  longitude : Option (List Char)
  saveErr : Option (List Char)
  nowMs : Nat

/-- Does `pat` occur at the start of `s`? (model of a literal-string prefix
test). -/
def startsWithL : List Char → List Char → Bool
  | [], _ => true
  | _ :: _, [] => false
  | p :: ps, c :: cs => if p = c then startsWithL ps cs else false

/-- Find the first occurrence of `sep` in `s`, returning the text before it
and the text after it (model of the first split point of
`String.prototype.split`). -/
def breakSub (sep : List Char) : List Char → Option (List Char × List Char)
  | [] => if startsWithL sep [] then some ([], []) else none
  | c :: rest =>
    if startsWithL sep (c :: rest) then some ([], (c :: rest).drop sep.length)
    else
      match breakSub sep rest with
      | none => none
      | some (b, a) => some (c :: b, a)

/-- The bearer separator used by `authorization.split("Bearer ")`. -/
def bearerSep : List Char := toL "Bearer "

/-- Model of `req.headers.authorization?.split("Bearer ")[1]`: the segment
between the first and second occurrence of the separator (up to the end when
there is no second occurrence), or nothing when the header is absent or the
separator does not occur. -/
def extractIdToken (auth : Option (List Char)) : Option (List Char) :=
  match auth with
  | none => none
  | some h =>
    match breakSub bearerSep h with
    | none => none
    | some (_, after) =>
      match breakSub bearerSep after with
      | none => some after
      | some (b, _) => some b

/-- The `authenticate` middleware (src/server.js lines 54-65): extract the
bearer token (an empty extracted token is falsy in JS, hence also "No
token"), verify it, and either short-circuit with a 401 response or yield
the decoded uid and phone number. -/
def authenticate (req : ReqAuth) : Except Response (List Char × List Char) :=
  match extractIdToken req.authorization with
  | none => Except.error ⟨401, RespBody.errMsg (toL "No token")⟩
  | some tok =>
    if tok = [] then Except.error ⟨401, RespBody.errMsg (toL "No token")⟩
    else
      match req.verify tok with
      | Except.error _ => Except.error ⟨401, RespBody.errMsg (toL "Invalid token")⟩
      | Except.ok up => Except.ok up

/-- The analysis keys declared by the `AnalysisResultSchema` besides
identity, image, location and timestamp (src/server.js lines 36-39). -/
def schemaKeys : List (List Char) :=
  [toL "ingredients_analyzed", toL "product_labels", toL "total_alerts",
   toL "suggested_alternatives"]

/-- Every top-level path declared by the `AnalysisResultSchema`
(src/server.js lines 28-41). -/
def schemaTopKeys : List (List Char) :=
  [toL "uid", toL "phone", toL "imageUrl", toL "location",
   toL "ingredients_analyzed", toL "product_labels", toL "total_alerts",
   toL "suggested_alternatives", toL "createdAt"]

/-- The image reference stored by the authenticated revision:
`uploaded_images/<Date.now()>.jpg`. -/
def imageUrlOf (nowMs : Nat) : List Char :=
  toL "uploaded_images/" ++ toL (Nat.repr nowMs) ++ toL ".jpg"

/-- The value stored for a geolocation form field: the raw text of the field
(the `parseFloat` conversion is an external numeric primitive) or null when
the field is absent. -/
def locVal (o : Option (List Char)) : Json :=
  match o with
  | some s => Json.str s
  | none => Json.null

/-- The explicitly listed properties of the document constructor's object
literal (src/server.js lines 166-169), in source order: caller uid and
phone, the image reference, and the geolocation object. -/
def baseDocFields (req : ReqAuth) (uid phone : List Char) : List (List Char × Json) :=
  [(toL "uid", Json.str uid),
   (toL "phone", Json.str phone),
   (toL "imageUrl", Json.str (imageUrlOf req.nowMs)),
   (toL "location",
     Json.obj [(toL "latitude", locVal req.latitude),
               (toL "longitude", locVal req.longitude)])]

/-- The properties contributed by the object spread `...json`
(src/server.js line 170).  A non-object value spreads no string-keyed
properties the schema declares (array and string spreads create only index
keys), so it is modelled as empty. -/
def spreadFields (v : Json) : List (List Char × Json) :=
  match v with
  | Json.obj fs => fs
  | _ => []

/-- A JS object literal whose spread is written last: a spread property
overrides an explicitly listed property with the same key, so an explicit
entry survives only when the spread has no entry for its key. -/
def jsObjLit (base extra : List (List Char × Json)) : List (List Char × Json) :=
  base.filter (fun kv => (List.lookup kv.1 extra).isNone) ++ extra

/-- The document built from a successfully parsed reply (src/server.js
lines 165-171): the constructor object literal with the parsed reply spread
last — overriding the explicitly listed caller fields on key collision —
restricted by mongoose strict mode to the schema-declared paths. -/
def mkDoc (req : ReqAuth) (uid phone : List Char) (v : Json) : SavedDoc :=
  ⟨(jsObjLit (baseDocFields req uid phone) (spreadFields v)).filter
    (fun kv => schemaTopKeys.contains kv.1)⟩

/-- Try-block body of the authenticated revision's handler, given the uid and
phone attached by the middleware.  The no-match branch models the non-null
assertion `raw.match(/\x7b[\s\S]*\x7d$/)![0]` throwing a TypeError, and a
parse failure models `JSON.parse` throwing; both land in the outer catch. -/
def analyzeAuthBody (req : ReqAuth) (uid phone : List Char) :
    Except (List Char) Response × Eff :=
  if req.hasFile = false then
    (Except.ok ⟨400, RespBody.errMsg (toL "No image")⟩, effUpload)
  else
    match req.ocr with
    | Except.error m => (Except.error m, effOcr)
    | Except.ok _t =>
      match req.chat with
      | Except.error m => (Except.error m, effChat)
      | Except.ok raw =>
        match jsMatchBrace (sanitizeS1 raw) with
        | none => (Except.error typeErrorMsg, effChat)
        | some mtxt =>
          match jsonParse mtxt with
          | none => (Except.error jsonThrowMsg, effChat)
          | some json =>
            match req.saveErr with
            | some m => (Except.error m, effChat)
            | none =>
              (Except.ok ⟨200, RespBody.jsonVal json⟩,
                ⟨true, true, true, [mkDoc req uid phone json]⟩)

/-- The authenticated revision's handler with its catch block, which answers
500 with the thrown error's message (src/server.js lines 175-178). -/
def analyzeAuth (req : ReqAuth) (uid phone : List Char) : Response × Eff :=
  match analyzeAuthBody req uid phone with
  | (Except.ok r, eff) => (r, eff)
  | (Except.error m, eff) => (⟨500, RespBody.errMsg m⟩, eff)

/-- The full authenticated route: `app.post("/analyze", authenticate, ...)`.
When the middleware short-circuits, the handler never runs and no pipeline
step is performed. -/
def routeAnalyzeAuth (req : ReqAuth) : Response × Eff :=
  match authenticate req with
  | Except.error r => (r, effNone)
  | Except.ok (u, p) => analyzeAuth req u p

/-! ## Fence wrapping and sanitizer lemmas -/

/-- The bare triple-backtick fence marker. -/
def fence3 : List Char := ['\x60', '\x60', '\x60']

/-- A reply consisting of `text` wrapped in a json-labelled markdown fence. -/
def wrapJsonFence (s : List Char) : List Char :=
  '\x60' :: '\x60' :: '\x60' :: 'j' :: 's' :: 'o' :: 'n' :: '\n' :: (s ++ '\n' :: fence3)

/-- A reply consisting of `text` wrapped in a bare markdown fence. -/
def wrapBareFence (s : List Char) : List Char :=
  '\x60' :: '\x60' :: '\x60' :: '\n' :: (s ++ '\n' :: fence3)

/-- A concrete valid JSON object text used to instantiate the sanitizer
theorems. -/
def uEx : List Char := toL "\x7b\"a\":1\x7d"

/-- The object `uEx` denotes. -/
def fsEx : List (List Char × Json) := [(toL "a", Json.num 1)]

/-! ### C4: the sanitizer as a step recipe

The definitions below follow the wording of claim C4 ("trim whitespace;
strip a leading json fence or a leading bare fence marker if present; strip
a trailing fence marker if present; then extract the substring starting at
the first open brace and ending at a final close brace at the end of the
string"), written independently of the source model so the two can be
compared. -/

/-- Does `pat` occur at the end of `s`? -/
def endsWithL (pat s : List Char) : Bool :=
  startsWithL pat.reverse s.reverse

/-- The seven characters of the json fence marker. -/
def fenceJson7 : List Char := ['\x60', '\x60', '\x60', 'j', 's', 'o', 'n']

/-- Claim wording: strip a leading json fence marker if present (the regex
also consumes the whitespace run that follows the marker). -/
def specStripJson (s : List Char) : List Char :=
  if startsWithL fenceJson7 s then (s.drop 7).dropWhile isJsWs else s

/-- Claim wording: strip a leading bare fence marker if present. -/
def specStripBare (s : List Char) : List Char :=
  if startsWithL fence3 s then (s.drop 3).dropWhile isJsWs else s

/-- Claim wording: strip a trailing fence marker if present. -/
def specStripTrail (s : List Char) : List Char :=
  if endsWithL fence3 s then s.take (s.length - 3) else s

/-- Claim wording: the substring starting at the first open brace and ending
at a final close brace at the very end of the string. -/
def specMatchBrace (s : List Char) : Option (List Char) :=
  match s.findIdx? (fun c => c = '\x7b') with
  | none => none
  | some i => if s.getLast? = some '\x7d' then some (s.drop i) else none

/-- The extraction pipeline exactly as claim C4 words it: one leading trim,
fence strips, then the match, with no re-trim before matching. -/
def specC4Extract (s : List Char) : Option (List Char) :=
  specMatchBrace (specStripTrail (specStripBare (specStripJson (jsTrim s))))

/-- The amended pipeline: as claim C4, plus a second trim after the fence
strips and before the match, which is what the part_000 sanitizer does. -/
def specC4ExtractAmended (s : List Char) : Option (List Char) :=
  specMatchBrace (jsTrim (specStripTrail (specStripBare (specStripJson (jsTrim s)))))

/-- The fenced reply on which the literal step recipe of claim C4 disagrees
with the code. -/
def rawC4 : List Char := toL "\x60\x60\x60json\n\x7b\"a\":1\x7d\n\x60\x60\x60"

/-- A concrete file-less request to an unauthenticated revision. -/
def reqPlainNoFile : ReqPlain := ⟨false, Except.ok [], Except.ok []⟩

/-- A concrete file-less request to the authenticated revision. -/
def reqAuthNoFile : ReqAuth :=
  ⟨some (toL "Bearer tok"), fun _ => Except.ok (toL "u1", toL "p1"), false,
    Except.ok [], Except.ok [], none, none, none, 0⟩

/-- A concrete request whose model reply has a brace block that is not valid
JSON. -/
def reqBadJson : ReqPlain := ⟨true, Except.ok [], Except.ok (toL "\x7ba\x7d")⟩

/-- A concrete authenticated request whose model reply contains no brace
block at all. -/
def reqNoBlock : ReqAuth :=
  ⟨some (toL "Bearer tok"), fun _ => Except.ok (toL "u1", toL "p1"), true,
    Except.ok (toL "text"), Except.ok (toL "no braces here"), none, none, none, 0⟩

/-- A concrete unauthenticated request whose model reply contains no brace
block. -/
def reqNoBlockPlain : ReqPlain := ⟨true, Except.ok [], Except.ok (toL "no braces here")⟩

/-- Lookup of a key in a JSON object's fields. -/
def jsonLookup (v : Json) (k : List Char) : Option Json :=
  match v with
  | Json.obj fs => fs.lookup k
  | _ => none

/-- A concrete authenticated request whose reply parses and whose save
succeeds. -/
def reqPersist : ReqAuth :=
  ⟨some (toL "Bearer tok"), fun _ => Except.ok (toL "u1", toL "p1"), true,
    Except.ok (toL "text"), Except.ok (toL "\x7b\"total_alerts\":3\x7d"),
    some (toL "12.5"), some (toL "77.1"), none, 42⟩

/-- The object parsed from the reply of `reqPersist`. -/
def vPersist : Json := Json.obj [(toL "total_alerts", Json.num 3)]

/-- A concrete authenticated request whose reply reuses the schema-declared
key `uid`. -/
def reqEvil : ReqAuth :=
  ⟨some (toL "Bearer tok"), fun _ => Except.ok (toL "u1", toL "p1"), true,
    Except.ok (toL "text"),
    Except.ok (toL "\x7b\"uid\":\"evil\",\"total_alerts\":3\x7d"),
    some (toL "12.5"), some (toL "77.1"), none, 0⟩

/-- The object parsed from the reply of `reqEvil`. -/
def vEvil : Json :=
  Json.obj [(toL "uid", Json.str (toL "evil")), (toL "total_alerts", Json.num 3)]

/-- A response is either a 200 carrying a JSON payload or a non-200 carrying
an object with an `error` string. -/
def totalJsonResp (r : Response) : Prop :=
  (r.status = 200 ∧ ∃ v, r.body = RespBody.jsonVal v) ∨
  (r.status ≠ 200 ∧ ∃ m, r.body = RespBody.errMsg m)

example : jsonParse (toL "\x7b\"a\":1\x7d") = some (Json.obj [(toL "a", Json.num 1)]) := by rfl

example : jsonParse (toL "\x7ba\x7d") = none := by rfl

example : jsMatchBrace (toL "xx\x7b\"a\":1\x7d") = some (toL "\x7b\"a\":1\x7d") := by rfl

example : jsMatchBrace (toL "no braces here") = none := by rfl

example : sanitizeV (toL "\x60\x60\x60json\n\x7b\"a\":1\x7d\n\x60\x60\x60") = toL "\x7b\"a\":1\x7d" := by rfl

example : sanitizeS2 (toL "\x60\x60\x60json\n\x7b\"a\":1\x7d\n\x60\x60\x60") = toL "\x7b\"a\":1\x7d" := by rfl

example : sanitizeS1 (toL "\x60\x60\x60JSON\n\x7b\"a\":1\x7d\n\x60\x60\x60") = toL "\x7b\"a\":1\x7d" := by rfl

lemma braceShape (u : List Char) (h1 : u.head? = some '\x7b')
    (h2 : u.getLast? = some '\x7d') : ∃ mid, u = '\x7b' :: (mid ++ ['\x7d']) := by
  cases u with
  | nil => simp at h1
  | cons c t =>
    have hc : c = '\x7b' := by simpa using h1
    subst hc
    rcases t.eq_nil_or_concat' with rfl | ⟨L, b, rfl⟩
    · simp [List.getLast?] at h2
    · have hb : b = '\x7d' := by
        have : ('\x7b' :: (L ++ [b])).getLast? = some b := by
          rw [show '\x7b' :: (L ++ [b]) = ('\x7b' :: L) ++ [b] from rfl]
          exact List.getLast?_concat _
        rw [this] at h2
        simpa using h2
      exact ⟨L, by simp [hb]⟩

lemma dropWhile_eq_self_of_head (p : Char → Bool) (l : List Char)
    (h : ∀ c, l.head? = some c → p c = false) : l.dropWhile p = l := by
  cases l with
  | nil => rfl
  | cons a t => simp [List.dropWhile_cons, h a rfl]

lemma jsTrim_eq_self (l : List Char)
    (h1 : ∀ c, l.head? = some c → isJsWs c = false)
    (h2 : ∀ c, l.getLast? = some c → isJsWs c = false) : jsTrim l = l := by
  unfold jsTrim
  rw [dropWhile_eq_self_of_head _ _ h1,
    dropWhile_eq_self_of_head _ _ (fun c hc => h2 c (by rwa [List.head?_reverse] at hc)),
    List.reverse_reverse]

lemma jsTrim_concat_ws (l : List Char) (e : Char) (he : isJsWs e = true)
    (h1 : ∀ c, l.head? = some c → isJsWs c = false)
    (h2 : ∀ c, l.getLast? = some c → isJsWs c = false) : jsTrim (l ++ [e]) = l := by
  cases l with
  | nil =>
    simp [jsTrim, List.dropWhile_cons, he]
  | cons a t =>
    unfold jsTrim
    have ha : isJsWs a = false := h1 a rfl
    rw [show (a :: t) ++ [e] = a :: (t ++ [e]) from rfl]
    rw [List.dropWhile_cons_of_neg (by simp [ha])]
    rw [List.reverse_cons, show (t ++ [e]).reverse = e :: t.reverse from by simp]
    rw [show (e :: t.reverse) ++ [a] = e :: (t.reverse ++ [a]) from rfl]
    rw [List.dropWhile_cons_of_pos (by simp [he])]
    rw [show t.reverse ++ [a] = (a :: t).reverse from by simp]
    rw [dropWhile_eq_self_of_head _ _
      (fun c hc => h2 c (by rwa [List.head?_reverse] at hc)),
      List.reverse_reverse]

lemma stripTrailFence_wrap (A : List Char) :
    stripTrailFence (A ++ '\n' :: fence3) = A ++ ['\n'] := by
  unfold stripTrailFence
  rw [show (A ++ '\n' :: fence3).reverse = '\x60' :: '\x60' :: '\x60' :: '\n' :: A.reverse from by
    simp [fence3]]
  simp

lemma stripTrailFence_concat_brace (x : List Char) :
    stripTrailFence (x ++ ['\x7d']) = x ++ ['\x7d'] := by
  unfold stripTrailFence
  rw [show (x ++ ['\x7d']).reverse = '\x7d' :: x.reverse from by simp]
  rfl

lemma jsMatchBrace_self (mid : List Char) :
    jsMatchBrace ('\x7b' :: (mid ++ ['\x7d'])) = some ('\x7b' :: (mid ++ ['\x7d'])) := by
  rw [jsMatchBrace]
  simp only [if_pos rfl]
  rw [show ('\x7b' :: (mid ++ ['\x7d'])).getLast? = some '\x7d' from by
    rw [show '\x7b' :: (mid ++ ['\x7d']) = ('\x7b' :: mid) ++ ['\x7d'] from rfl]
    exact List.getLast?_concat _]
  simp

lemma uGetLast (mid : List Char) : ('\x7b' :: (mid ++ ['\x7d'])).getLast? = some '\x7d' := by
  rw [show '\x7b' :: (mid ++ ['\x7d']) = ('\x7b' :: mid) ++ ['\x7d'] from rfl]
  exact List.getLast?_concat _

lemma uHeadOk (mid : List Char) :
    ∀ c, ('\x7b' :: (mid ++ ['\x7d'])).head? = some c → isJsWs c = false := by
  intro c hc
  simp only [List.head?_cons, Option.some.injEq] at hc
  subst hc
  rfl

lemma uLastOk (mid : List Char) :
    ∀ c, ('\x7b' :: (mid ++ ['\x7d'])).getLast? = some c → isJsWs c = false := by
  intro c hc
  rw [uGetLast] at hc
  cases hc
  rfl

lemma jsTrim_u (mid : List Char) :
    jsTrim ('\x7b' :: (mid ++ ['\x7d'])) = '\x7b' :: (mid ++ ['\x7d']) :=
  jsTrim_eq_self _ (uHeadOk mid) (uLastOk mid)

lemma sanitizeV_self (mid : List Char) :
    sanitizeV ('\x7b' :: (mid ++ ['\x7d'])) = '\x7b' :: (mid ++ ['\x7d']) := by
  unfold sanitizeV
  rw [jsTrim_u]
  rw [show stripLeadJsonFence ('\x7b' :: (mid ++ ['\x7d'])) = '\x7b' :: (mid ++ ['\x7d']) from rfl]
  rw [show stripLeadBareFence ('\x7b' :: (mid ++ ['\x7d'])) = '\x7b' :: (mid ++ ['\x7d']) from rfl]
  rw [show '\x7b' :: (mid ++ ['\x7d']) = ('\x7b' :: mid) ++ ['\x7d'] from rfl,
    stripTrailFence_concat_brace]
  rw [show ('\x7b' :: mid) ++ ['\x7d'] = '\x7b' :: (mid ++ ['\x7d']) from rfl, jsTrim_u]

lemma wrapJson_getLast (s : List Char) : (wrapJsonFence s).getLast? = some '\x60' := by
  rw [← List.head?_reverse]
  simp [wrapJsonFence, fence3]

lemma wrapBare_getLast (s : List Char) : (wrapBareFence s).getLast? = some '\x60' := by
  rw [← List.head?_reverse]
  simp [wrapBareFence, fence3]

lemma jsTrim_wrapJson (s : List Char) : jsTrim (wrapJsonFence s) = wrapJsonFence s := by
  refine jsTrim_eq_self _ (fun c hc => ?_) (fun c hc => ?_)
  · rw [show (wrapJsonFence s).head? = some '\x60' from rfl] at hc
    cases hc
    rfl
  · rw [wrapJson_getLast] at hc
    cases hc
    rfl

lemma jsTrim_wrapBare (s : List Char) : jsTrim (wrapBareFence s) = wrapBareFence s := by
  refine jsTrim_eq_self _ (fun c hc => ?_) (fun c hc => ?_)
  · rw [show (wrapBareFence s).head? = some '\x60' from rfl] at hc
    cases hc
    rfl
  · rw [wrapBare_getLast] at hc
    cases hc
    rfl

lemma stripLeadJsonFence_wrapJson (mid : List Char) :
    stripLeadJsonFence (wrapJsonFence ('\x7b' :: (mid ++ ['\x7d']))) =
      ('\x7b' :: (mid ++ ['\x7d'])) ++ '\n' :: fence3 := by
  rw [show stripLeadJsonFence (wrapJsonFence ('\x7b' :: (mid ++ ['\x7d']))) =
      List.dropWhile isJsWs ('\n' :: (('\x7b' :: (mid ++ ['\x7d'])) ++ '\n' :: fence3)) from rfl]
  rw [List.dropWhile_cons_of_pos (by rfl)]
  exact dropWhile_eq_self_of_head _ _ (fun c hc => by
    simp only [List.cons_append, List.head?_cons, Option.some.injEq] at hc
    subst hc
    rfl)

lemma stripLeadBareFence_wrapBare (mid : List Char) :
    stripLeadBareFence (wrapBareFence ('\x7b' :: (mid ++ ['\x7d']))) =
      ('\x7b' :: (mid ++ ['\x7d'])) ++ '\n' :: fence3 := by
  rw [show stripLeadBareFence (wrapBareFence ('\x7b' :: (mid ++ ['\x7d']))) =
      List.dropWhile isJsWs ('\n' :: (('\x7b' :: (mid ++ ['\x7d'])) ++ '\n' :: fence3)) from rfl]
  rw [List.dropWhile_cons_of_pos (by rfl)]
  exact dropWhile_eq_self_of_head _ _ (fun c hc => by
    simp only [List.cons_append, List.head?_cons, Option.some.injEq] at hc
    subst hc
    rfl)

lemma jsTrim_u_nl (mid : List Char) :
    jsTrim (('\x7b' :: (mid ++ ['\x7d'])) ++ ['\n']) = '\x7b' :: (mid ++ ['\x7d']) :=
  jsTrim_concat_ws _ _ rfl (uHeadOk mid) (uLastOk mid)

lemma sanitizeV_wrapJson (mid : List Char) :
    sanitizeV (wrapJsonFence ('\x7b' :: (mid ++ ['\x7d']))) = '\x7b' :: (mid ++ ['\x7d']) := by
  unfold sanitizeV
  rw [jsTrim_wrapJson, stripLeadJsonFence_wrapJson]
  rw [show stripLeadBareFence (('\x7b' :: (mid ++ ['\x7d'])) ++ '\n' :: fence3) =
      ('\x7b' :: (mid ++ ['\x7d'])) ++ '\n' :: fence3 from rfl]
  rw [stripTrailFence_wrap, jsTrim_u_nl]

lemma sanitizeV_wrapBare (mid : List Char) :
    sanitizeV (wrapBareFence ('\x7b' :: (mid ++ ['\x7d']))) = '\x7b' :: (mid ++ ['\x7d']) := by
  unfold sanitizeV
  rw [jsTrim_wrapBare]
  rw [show stripLeadJsonFence (wrapBareFence ('\x7b' :: (mid ++ ['\x7d']))) =
      wrapBareFence ('\x7b' :: (mid ++ ['\x7d'])) from rfl]
  rw [show wrapBareFence ('\x7b' :: (mid ++ ['\x7d'])) =
      '\x60' :: '\x60' :: '\x60' :: '\n' :: (('\x7b' :: (mid ++ ['\x7d'])) ++ '\n' :: fence3)
      from rfl]
  rw [show stripLeadBareFence
        ('\x60' :: '\x60' :: '\x60' :: '\n' :: (('\x7b' :: (mid ++ ['\x7d'])) ++ '\n' :: fence3)) =
      List.dropWhile isJsWs ('\n' :: (('\x7b' :: (mid ++ ['\x7d'])) ++ '\n' :: fence3)) from rfl]
  rw [List.dropWhile_cons_of_pos (by rfl)]
  rw [dropWhile_eq_self_of_head _ _ (fun c hc => by
    simp only [List.cons_append, List.head?_cons, Option.some.injEq] at hc
    subst hc
    rfl)]
  rw [stripTrailFence_wrap, jsTrim_u_nl]

lemma sanitizeS2_self (mid : List Char) :
    sanitizeS2 ('\x7b' :: (mid ++ ['\x7d'])) = '\x7b' :: (mid ++ ['\x7d']) := by
  unfold sanitizeS2
  rw [show stripLeadJsonFence ('\x7b' :: (mid ++ ['\x7d'])) = '\x7b' :: (mid ++ ['\x7d']) from rfl]
  rw [show '\x7b' :: (mid ++ ['\x7d']) = ('\x7b' :: mid) ++ ['\x7d'] from rfl,
    stripTrailFence_concat_brace]
  rw [show ('\x7b' :: mid) ++ ['\x7d'] = '\x7b' :: (mid ++ ['\x7d']) from rfl, jsTrim_u]

lemma sanitizeS2_wrapJson (mid : List Char) :
    sanitizeS2 (wrapJsonFence ('\x7b' :: (mid ++ ['\x7d']))) = '\x7b' :: (mid ++ ['\x7d']) := by
  unfold sanitizeS2
  rw [stripLeadJsonFence_wrapJson, stripTrailFence_wrap, jsTrim_u_nl]

lemma sanitizeS2_wrapBare (mid : List Char) :
    sanitizeS2 (wrapBareFence ('\x7b' :: (mid ++ ['\x7d']))) =
      '\x60' :: '\x60' :: '\x60' :: '\n' :: ('\x7b' :: (mid ++ ['\x7d'])) := by
  unfold sanitizeS2
  rw [show stripLeadJsonFence (wrapBareFence ('\x7b' :: (mid ++ ['\x7d']))) =
      wrapBareFence ('\x7b' :: (mid ++ ['\x7d'])) from rfl]
  rw [show wrapBareFence ('\x7b' :: (mid ++ ['\x7d'])) =
      ('\x60' :: '\x60' :: '\x60' :: '\n' :: ('\x7b' :: (mid ++ ['\x7d']))) ++ '\n' :: fence3
      from by simp [wrapBareFence]]
  rw [stripTrailFence_wrap]
  rw [show ('\x60' :: '\x60' :: '\x60' :: '\n' :: ('\x7b' :: (mid ++ ['\x7d']))) ++ ['\n'] =
      ('\x60' :: '\x60' :: '\x60' :: '\n' :: ('\x7b' :: (mid ++ ['\x7d']))) ++ ['\n'] from rfl]
  refine jsTrim_concat_ws _ _ rfl (fun c hc => ?_) (fun c hc => ?_)
  · simp only [List.head?_cons, Option.some.injEq] at hc
    subst hc
    rfl
  · rw [show ('\x60' :: '\x60' :: '\x60' :: '\n' :: ('\x7b' :: (mid ++ ['\x7d']))).getLast? =
        some '\x7d' from by
      rw [← List.head?_reverse]
      simp] at hc
    cases hc
    rfl

lemma jsMatchBrace_fenced (mid : List Char) :
    jsMatchBrace ('\x60' :: '\x60' :: '\x60' :: '\n' :: ('\x7b' :: (mid ++ ['\x7d']))) =
      some ('\x7b' :: (mid ++ ['\x7d'])) := by
  rw [jsMatchBrace, if_neg (by decide), jsMatchBrace, if_neg (by decide),
    jsMatchBrace, if_neg (by decide), jsMatchBrace, if_neg (by decide), jsMatchBrace_self]

/-! ## Claim theorems -/

/-- C1: for every model reply that is a valid JSON object text (leading
open brace, trailing close brace, parseable), whether unfenced, wrapped in a
json-labelled fence, or wrapped in a bare fence, the sanitize-and-parse step
of both cited `/analyze` revisions recovers exactly that object: parsing the
extracted substring yields the original object. -/
theorem sanitize_parse_roundtrip (u : List Char) (fs : List (List Char × Json))
    (h1 : u.head? = some '\x7b') (h2 : u.getLast? = some '\x7d')
    (hp : jsonParse u = some (Json.obj fs)) :
    (jsMatchBrace (sanitizeV u)).bind jsonParse = some (Json.obj fs) ∧
    (jsMatchBrace (sanitizeV (wrapJsonFence u))).bind jsonParse = some (Json.obj fs) ∧
    (jsMatchBrace (sanitizeV (wrapBareFence u))).bind jsonParse = some (Json.obj fs) ∧
    (jsMatchBrace (sanitizeS2 u)).bind jsonParse = some (Json.obj fs) ∧
    (jsMatchBrace (sanitizeS2 (wrapJsonFence u))).bind jsonParse = some (Json.obj fs) ∧
    (jsMatchBrace (sanitizeS2 (wrapBareFence u))).bind jsonParse = some (Json.obj fs) := by
  obtain ⟨mid, rfl⟩ := braceShape u h1 h2
  refine ⟨?_, ?_, ?_, ?_, ?_, ?_⟩
  · rw [sanitizeV_self, jsMatchBrace_self]
    simpa using hp
  · rw [sanitizeV_wrapJson, jsMatchBrace_self]
    simpa using hp
  · rw [sanitizeV_wrapBare, jsMatchBrace_self]
    simpa using hp
  · rw [sanitizeS2_self, jsMatchBrace_self]
    simpa using hp
  · rw [sanitizeS2_wrapJson, jsMatchBrace_self]
    simpa using hp
  · rw [sanitizeS2_wrapBare, jsMatchBrace_fenced]
    simpa using hp

/-- Witness for C1: the round-trip theorem applied at the concrete object
text `uEx`. -/
theorem sanitize_parse_roundtrip_witness :
    (jsMatchBrace (sanitizeV uEx)).bind jsonParse = some (Json.obj fsEx) ∧
    (jsMatchBrace (sanitizeV (wrapJsonFence uEx))).bind jsonParse = some (Json.obj fsEx) ∧
    (jsMatchBrace (sanitizeV (wrapBareFence uEx))).bind jsonParse = some (Json.obj fsEx) ∧
    (jsMatchBrace (sanitizeS2 uEx)).bind jsonParse = some (Json.obj fsEx) ∧
    (jsMatchBrace (sanitizeS2 (wrapJsonFence uEx))).bind jsonParse = some (Json.obj fsEx) ∧
    (jsMatchBrace (sanitizeS2 (wrapBareFence uEx))).bind jsonParse = some (Json.obj fsEx) :=
  sanitize_parse_roundtrip uEx fsEx rfl rfl rfl

lemma startsWithL_iff (p s : List Char) : startsWithL p s = true ↔ ∃ t, s = p ++ t := by
  induction p generalizing s with
  | nil => simp [startsWithL]
  | cons a ps ih =>
    cases s with
    | nil => simp [startsWithL]
    | cons c cs =>
      rw [startsWithL]
      by_cases hac : a = c
      · subst hac
        rw [if_pos rfl, ih]
        constructor
        · rintro ⟨t, rfl⟩
          exact ⟨t, rfl⟩
        · rintro ⟨t, ht⟩
          injection ht with h1 h2
          exact ⟨t, h2⟩
      · rw [if_neg hac]
        simp only [Bool.false_eq_true, false_iff, not_exists]
        intro t ht
        rw [List.cons_append] at ht
        injection ht with h1 h2
        exact hac h1.symm

lemma stripLeadJsonFence_eq_spec (s : List Char) :
    stripLeadJsonFence s = specStripJson s := by
  unfold stripLeadJsonFence
  split
  · rename_i rest
    rw [specStripJson, if_pos (by rw [startsWithL_iff]; exact ⟨rest, rfl⟩)]
    rfl
  · rename_i hno
    rw [specStripJson]
    rw [if_neg ?hns]
    case hns =>
      rw [startsWithL_iff]
      rintro ⟨t, rfl⟩
      exact hno t rfl

lemma stripLeadBareFence_eq_spec (s : List Char) :
    stripLeadBareFence s = specStripBare s := by
  unfold stripLeadBareFence
  split
  · rename_i rest
    rw [specStripBare, if_pos (by rw [startsWithL_iff]; exact ⟨rest, rfl⟩)]
    rfl
  · rename_i hno
    rw [specStripBare]
    rw [if_neg ?hns]
    case hns =>
      rw [startsWithL_iff]
      rintro ⟨t, rfl⟩
      exact hno t rfl

lemma stripTrailFence_eq_spec (s : List Char) :
    stripTrailFence s = specStripTrail s := by
  unfold stripTrailFence
  split
  · rename_i restRev hrev
    have hs : s = restRev.reverse ++ fence3 := by
      have := congrArg List.reverse hrev
      rw [List.reverse_reverse] at this
      rw [this]
      simp [fence3]
    rw [specStripTrail, if_pos ?hew]
    case hew =>
      rw [endsWithL, startsWithL_iff]
      exact ⟨restRev, by rw [hrev]; rfl⟩
    rw [hs]
    rw [show (restRev.reverse ++ fence3).length - 3 = restRev.reverse.length from by
      simp [fence3]]
    rw [List.take_left]
  · rename_i hno
    rw [specStripTrail]
    rw [if_neg ?hne]
    case hne =>
      rw [endsWithL, startsWithL_iff]
      rintro ⟨t, ht⟩
      exact hno t (by simpa [fence3] using ht)

lemma jsMatchBrace_eq_spec (s : List Char) : jsMatchBrace s = specMatchBrace s := by
  induction s with
  | nil => rfl
  | cons c rest ih =>
    by_cases hc : c = '\x7b'
    · subst hc
      rw [jsMatchBrace, if_pos rfl, specMatchBrace]
      have hidx : List.findIdx? (fun c => decide (c = '\x7b')) ('\x7b' :: rest) 0 = some 0 := by
        rw [List.findIdx?_cons]
        simp
      rw [hidx]
      show (if ('\x7b' :: rest).getLast? = some '\x7d' then some ('\x7b' :: rest) else none) =
        if ('\x7b' :: rest).getLast? = some '\x7d' then some (List.drop 0 ('\x7b' :: rest))
        else none
      rw [List.drop_zero]
    · rw [jsMatchBrace, if_neg hc, ih, specMatchBrace, specMatchBrace]
      rw [List.findIdx?_cons, if_neg (by simpa using hc), List.findIdx?_succ]
      cases hfi : rest.findIdx? (fun x => decide (x = '\x7b')) 0 with
      | none => simp [hfi]
      | some i =>
        have hne : rest ≠ [] := by
          rintro rfl
          simp at hfi
        obtain ⟨r, rs, rfl⟩ : ∃ r rs, rest = r :: rs := by
          cases rest with
          | nil => exact absurd rfl hne
          | cons r rs => exact ⟨r, rs, rfl⟩
        show (if (r :: rs).getLast? = some '\x7d' then some (List.drop i (r :: rs)) else none) =
          if (c :: r :: rs).getLast? = some '\x7d' then some (List.drop (i + 1) (c :: r :: rs))
          else none
        rw [List.getLast?_cons_cons, List.drop_succ_cons]

/-- Counterexample to C4 as stated: on a json-fenced reply the claim's
literal step sequence (single leading trim, fence strips, then the
end-anchored match) finds no match at all, because stripping the trailing
fence leaves a trailing newline; both code sanitizers re-trim before
matching and extract the object text. -/
theorem sanitizer_steps_counterexample :
    specC4Extract rawC4 = none ∧
    jsMatchBrace (sanitizeV rawC4) = some uEx ∧
    jsMatchBrace (sanitizeS2 rawC4) = some uEx := by
  refine ⟨rfl, rfl, rfl⟩

/-- C4 (amended): the part_000 sanitizer performs trim; strip a leading json
fence; strip a leading bare fence; strip a trailing fence; trim again; then
extract the substring from the first open brace to a final close brace at
the end of the string. -/
theorem sanitizer_steps_amended (s : List Char) :
    jsMatchBrace (sanitizeV s) = specC4ExtractAmended s := by
  unfold sanitizeV specC4ExtractAmended
  rw [stripLeadJsonFence_eq_spec, stripLeadBareFence_eq_spec, stripTrailFence_eq_spec,
    jsMatchBrace_eq_spec]

/-- C5: sanitizing an already-unfenced valid JSON object text yields the
same parsed object as sanitizing the same text wrapped in a json-labelled
fence, and that object is the text's own parse. -/
theorem sanitize_fence_idempotent (u : List Char) (fs : List (List Char × Json))
    (h1 : u.head? = some '\x7b') (h2 : u.getLast? = some '\x7d')
    (hp : jsonParse u = some (Json.obj fs)) :
    (jsMatchBrace (sanitizeV u)).bind jsonParse =
      (jsMatchBrace (sanitizeV (wrapJsonFence u))).bind jsonParse ∧
    (jsMatchBrace (sanitizeV u)).bind jsonParse = some (Json.obj fs) := by
  obtain ⟨mid, rfl⟩ := braceShape u h1 h2
  constructor
  · rw [sanitizeV_self, sanitizeV_wrapJson]
  · rw [sanitizeV_self, jsMatchBrace_self]
    simpa using hp

/-- Witness for C5 at the concrete object text `uEx`. -/
theorem sanitize_fence_idempotent_witness :
    (jsMatchBrace (sanitizeV uEx)).bind jsonParse =
      (jsMatchBrace (sanitizeV (wrapJsonFence uEx))).bind jsonParse ∧
    (jsMatchBrace (sanitizeV uEx)).bind jsonParse = some (Json.obj fsEx) :=
  sanitize_fence_idempotent uEx fsEx rfl rfl rfl

/-- C6: a request without the image file field gets a 400 JSON error body
from every revision's handler, and neither the OCR call nor the completion
call is attempted (the effect record shows `ocrCalled = false` and
`chatCalled = false`). -/
theorem no_file_short_circuit (req : ReqPlain) (reqA : ReqAuth) (u p : List Char)
    (h : req.hasFile = false) (hA : reqA.hasFile = false) :
    analyzeV1 req = (⟨400, RespBody.errMsg (toL "No image file provided.")⟩, effUpload) ∧
    analyzeV2 req = (⟨400, RespBody.errMsg (toL "No image file provided.")⟩, effUpload) ∧
    analyzeV4 req = (⟨400, RespBody.errMsg (toL "No image file provided.")⟩, effUpload) ∧
    analyzeAuth reqA u p = (⟨400, RespBody.errMsg (toL "No image")⟩, effUpload) := by
  refine ⟨?_, ?_, ?_, ?_⟩ <;>
    simp [analyzeV1, analyzeV1Body, analyzeV2, analyzeV2Body, analyzeV4, analyzeV4Body,
      analyzeAuth, analyzeAuthBody, h, hA]

/-- Witness for C6 at concrete file-less requests. -/
theorem no_file_short_circuit_witness :
    analyzeV1 reqPlainNoFile = (⟨400, RespBody.errMsg (toL "No image file provided.")⟩, effUpload) ∧
    analyzeV2 reqPlainNoFile = (⟨400, RespBody.errMsg (toL "No image file provided.")⟩, effUpload) ∧
    analyzeV4 reqPlainNoFile = (⟨400, RespBody.errMsg (toL "No image file provided.")⟩, effUpload) ∧
    analyzeAuth reqAuthNoFile (toL "u1") (toL "p1") =
      (⟨400, RespBody.errMsg (toL "No image")⟩, effUpload) :=
  no_file_short_circuit reqPlainNoFile reqAuthNoFile (toL "u1") (toL "p1") rfl rfl

/-- C3: when the fence-stripped reply does contain an end-anchored brace
block whose content is not valid JSON, both part_000 revisions answer 500
with a parse-failure error body, and that body is distinct from the error
body of the no-block 400 branch. -/
theorem parse_failure_distinct (req : ReqPlain) (raw mtxt : List Char)
    (hf : req.hasFile = true) (ho : ∃ t, req.ocr = Except.ok t)
    (hc : req.chat = Except.ok raw)
    (hm : jsMatchBrace (sanitizeV raw) = some mtxt) (hp : jsonParse mtxt = none) :
    analyzeV1 req =
      (⟨500, RespBody.errMsg (toL "Failed to parse DeepSeek JSON response.")⟩, effChat) ∧
    analyzeV2 req =
      (⟨500, RespBody.errMsg (toL "Failed to parse JSON from DeepSeek.")⟩, effChat) ∧
    toL "Failed to parse DeepSeek JSON response." ≠
      toL "Invalid or missing JSON in DeepSeek response." ∧
    toL "Failed to parse JSON from DeepSeek." ≠ toL "Invalid JSON in DeepSeek response." := by
  obtain ⟨t, ho⟩ := ho
  refine ⟨?_, ?_, by decide, by decide⟩ <;>
    simp [analyzeV1, analyzeV1Body, analyzeV2, analyzeV2Body, hf, ho, hc, hm, hp]

/-- Witness for C3 at a reply whose brace block fails to parse. -/
theorem parse_failure_distinct_witness :
    analyzeV1 reqBadJson =
      (⟨500, RespBody.errMsg (toL "Failed to parse DeepSeek JSON response.")⟩, effChat) ∧
    analyzeV2 reqBadJson =
      (⟨500, RespBody.errMsg (toL "Failed to parse JSON from DeepSeek.")⟩, effChat) ∧
    toL "Failed to parse DeepSeek JSON response." ≠
      toL "Invalid or missing JSON in DeepSeek response." ∧
    toL "Failed to parse JSON from DeepSeek." ≠ toL "Invalid JSON in DeepSeek response." :=
  parse_failure_distinct reqBadJson (toL "\x7ba\x7d") (toL "\x7ba\x7d") rfl ⟨[], rfl⟩ rfl rfl rfl

/-- Counterexample to C2 as stated: in the authenticated revision the
non-null assertion on the match result means that a reply with no brace
block produces a caught TypeError and hence a 500 response, not the claimed
400. -/
theorem no_block_counterexample :
    jsMatchBrace (sanitizeS1 (toL "no braces here")) = none ∧
    routeAnalyzeAuth reqNoBlock = (⟨500, RespBody.errMsg typeErrorMsg⟩, effChat) ∧
    (routeAnalyzeAuth reqNoBlock).1.status ≠ 400 :=
  ⟨rfl, rfl, by decide⟩

/-- C2 (amended): when the fence-stripped reply contains no end-anchored
brace block, the two part_000 revisions and the second server.js revision
answer 400 with a JSON error body, while the authenticated revision throws a
TypeError on the null match result which its own catch converts into a 500
JSON error body; in every revision the exception is caught, so no request
crashes with an uncaught exception. -/
theorem no_block_behavior (req : ReqPlain) (reqA : ReqAuth) (u p raw : List Char)
    (hf : req.hasFile = true) (ho : ∃ t, req.ocr = Except.ok t)
    (hc : req.chat = Except.ok raw)
    (hfA : reqA.hasFile = true) (hoA : ∃ t, reqA.ocr = Except.ok t)
    (hcA : reqA.chat = Except.ok raw)
    (hmV : jsMatchBrace (sanitizeV raw) = none)
    (hmS2 : jsMatchBrace (sanitizeS2 raw) = none)
    (hmS1 : jsMatchBrace (sanitizeS1 raw) = none) :
    analyzeV1 req =
      (⟨400, RespBody.errMsg (toL "Invalid or missing JSON in DeepSeek response.")⟩, effChat) ∧
    analyzeV2 req = (⟨400, RespBody.errMsg (toL "Invalid JSON in DeepSeek response.")⟩, effChat) ∧
    analyzeV4 req = (⟨400, RespBody.errMsg (toL "Invalid JSON in LLM response.")⟩, effChat) ∧
    analyzeAuth reqA u p = (⟨500, RespBody.errMsg typeErrorMsg⟩, effChat) := by
  obtain ⟨t, ho⟩ := ho
  obtain ⟨tA, hoA⟩ := hoA
  refine ⟨?_, ?_, ?_, ?_⟩ <;>
    simp [analyzeV1, analyzeV1Body, analyzeV2, analyzeV2Body, analyzeV4, analyzeV4Body,
      analyzeAuth, analyzeAuthBody, hf, ho, hc, hfA, hoA, hcA, hmV, hmS2, hmS1]

/-- Witness for the amended C2 at a brace-free reply. -/
theorem no_block_behavior_witness :
    analyzeV1 reqNoBlockPlain =
      (⟨400, RespBody.errMsg (toL "Invalid or missing JSON in DeepSeek response.")⟩, effChat) ∧
    analyzeV2 reqNoBlockPlain =
      (⟨400, RespBody.errMsg (toL "Invalid JSON in DeepSeek response.")⟩, effChat) ∧
    analyzeV4 reqNoBlockPlain =
      (⟨400, RespBody.errMsg (toL "Invalid JSON in LLM response.")⟩, effChat) ∧
    analyzeAuth reqNoBlock (toL "u1") (toL "p1") =
      (⟨500, RespBody.errMsg typeErrorMsg⟩, effChat) :=
  no_block_behavior reqNoBlockPlain reqNoBlock (toL "u1") (toL "p1") (toL "no braces here")
    rfl ⟨[], rfl⟩ rfl rfl ⟨toL "text", rfl⟩ rfl rfl rfl rfl

/-- C8: the authentication middleware is a pure precondition gate.  A
missing or empty extracted token, or a failing verification, short-circuits
with 401 and no pipeline step runs (the effect record is `effNone`); on
successful verification the route runs the handler with exactly the decoded
uid and phone number attached. -/
theorem auth_gate (req : ReqAuth) :
    (extractIdToken req.authorization = none →
      routeAnalyzeAuth req = (⟨401, RespBody.errMsg (toL "No token")⟩, effNone)) ∧
    (∀ tok, extractIdToken req.authorization = some tok → tok = [] →
      routeAnalyzeAuth req = (⟨401, RespBody.errMsg (toL "No token")⟩, effNone)) ∧
    (∀ tok m, extractIdToken req.authorization = some tok → tok ≠ [] →
      req.verify tok = Except.error m →
      routeAnalyzeAuth req = (⟨401, RespBody.errMsg (toL "Invalid token")⟩, effNone)) ∧
    (∀ tok u p, extractIdToken req.authorization = some tok → tok ≠ [] →
      req.verify tok = Except.ok (u, p) →
      routeAnalyzeAuth req = analyzeAuth req u p) := by
  refine ⟨?_, ?_, ?_, ?_⟩
  · intro hek
    simp [routeAnalyzeAuth, authenticate, hek]
  · intro tok hek htk
    subst htk
    simp [routeAnalyzeAuth, authenticate, hek]
  · intro tok m hek htk hv
    simp [routeAnalyzeAuth, authenticate, hek, htk, hv]
  · intro tok u p hek htk hv
    simp [routeAnalyzeAuth, authenticate, hek, htk, hv]

/-- Witness for C8: the gate applied to a token-less request and to a
verified request. -/
theorem auth_gate_witness :
    routeAnalyzeAuth { reqNoBlock with authorization := none } =
      (⟨401, RespBody.errMsg (toL "No token")⟩, effNone) ∧
    routeAnalyzeAuth reqNoBlock = analyzeAuth reqNoBlock (toL "u1") (toL "p1") :=
  ⟨(auth_gate { reqNoBlock with authorization := none }).1 rfl,
    (auth_gate reqNoBlock).2.2.2 (toL "tok") (toL "u1") (toL "p1") rfl (by decide) rfl⟩

lemma lookup_filter_keys (ks : List (List Char)) (fs : List (List Char × Json))
    (k : List Char) (hk : k ∈ ks) :
    (fs.filter (fun kv => ks.contains kv.1)).lookup k = fs.lookup k := by
  induction fs with
  | nil => rfl
  | cons kv rest ih =>
    obtain ⟨k1, v1⟩ := kv
    by_cases hkk : k = k1
    · subst hkk
      rw [List.filter_cons_of_pos (by simpa [List.elem_iff] using hk)]
      simp
    · rcases hpc : (fun kv : List Char × Json => ks.contains kv.1) (k1, v1) with _ | _
      · rw [List.filter_cons_of_neg (by simpa using hpc)]
        rw [ih, List.lookup_cons]
        rw [show (k == k1) = false from by simpa using hkk]
      · rw [List.filter_cons_of_pos (by simpa using hpc)]
        rw [List.lookup_cons, List.lookup_cons]
        rw [show (k == k1) = false from by simpa using hkk]
        exact ih

lemma lookup_append (k : List Char) (l1 l2 : List (List Char × Json)) :
    List.lookup k (l1 ++ l2) =
      match List.lookup k l1 with
      | some x => some x
      | none => List.lookup k l2 := by
  induction l1 with
  | nil => simp
  | cons kv rest ih =>
    obtain ⟨k1, v1⟩ := kv
    rw [List.cons_append, List.lookup_cons, List.lookup_cons]
    cases hbeq : (k == k1) with
    | false =>
      simpa using ih
    | true => rfl

lemma lookup_filter_none (k : List Char) (p2 : List Char × Json → Bool)
    (l : List (List Char × Json)) (h : List.lookup k l = none) :
    List.lookup k (l.filter p2) = none := by
  induction l with
  | nil => simp
  | cons kv rest ih =>
    obtain ⟨k1, v1⟩ := kv
    rw [List.lookup_cons] at h
    cases hbeq : (k == k1) with
    | true =>
      rw [hbeq] at h
      exact absurd h (by simp)
    | false =>
      rw [hbeq] at h
      rcases hpc : p2 (k1, v1) with _ | _
      · rw [List.filter_cons_of_neg (by simp [hpc])]
        exact ih h
      · rw [List.filter_cons_of_pos (by simp [hpc])]
        rw [List.lookup_cons, hbeq]
        exact ih h

lemma lookup_filter_overridden (k : List Char) (x : Json)
    (base extra : List (List Char × Json)) (h : List.lookup k extra = some x) :
    List.lookup k (base.filter (fun kv => (List.lookup kv.1 extra).isNone)) = none := by
  induction base with
  | nil => simp
  | cons kv rest ih =>
    obtain ⟨k1, v1⟩ := kv
    cases hbeq : (k == k1) with
    | false =>
      rcases hpc : (List.lookup k1 extra).isNone with _ | _
      · rw [List.filter_cons_of_neg (by simp [hpc])]
        exact ih
      · rw [List.filter_cons_of_pos (by simp [hpc])]
        rw [List.lookup_cons, hbeq]
        exact ih
    | true =>
      have hk1 : k = k1 := by simpa using hbeq
      subst hk1
      rw [List.filter_cons_of_neg (by simp [h])]
      exact ih

lemma spreadFields_lookup (v : Json) (k : List Char) :
    List.lookup k (spreadFields v) = jsonLookup v k := by
  cases v <;> rfl

/-- Counterexample to C9 as stated: the constructor object spreads the
parsed reply after the explicitly listed caller fields (src/server.js lines
165-171), and `uid` is schema-declared, so the parseable reply
`\x7b"uid":"evil","total_alerts":3\x7d` is stored with the reply's uid, not
the caller's subject id. -/
theorem persistence_override_counterexample :
    jsonParse (toL "\x7b\"uid\":\"evil\",\"total_alerts\":3\x7d") = some vEvil ∧
    analyzeAuth reqEvil (toL "u1") (toL "p1") =
      (⟨200, RespBody.jsonVal vEvil⟩,
        ⟨true, true, true, [mkDoc reqEvil (toL "u1") (toL "p1") vEvil]⟩) ∧
    List.lookup (toL "uid") (mkDoc reqEvil (toL "u1") (toL "p1") vEvil).fields =
      some (Json.str (toL "evil")) ∧
    Json.str (toL "evil") ≠ Json.str (toL "u1") := by
  refine ⟨rfl, rfl, rfl, ?_⟩
  intro h
  injection h with h1
  exact absurd h1 (by decide)

/-- C9 (amended): in the authenticated revision a successfully parsed reply
leads to exactly one persisted record, built by listing the caller's uid,
phone, image reference and geolocation and then spreading the parsed reply
last, so a reply field with a schema-declared key overrides the caller's
value; the stored analysis fields always equal the parsed response, and when
the reply contains none of the caller keys the record carries the caller's
uid, phone, image reference and geolocation; the response body is exactly
the parsed JSON, and a store write failure yields a 500 error instead of a
200 response. -/
theorem persistence_contract_merge (req : ReqAuth) (u p raw mtxt : List Char) (v : Json)
    (hf : req.hasFile = true) (ho : ∃ t, req.ocr = Except.ok t)
    (hc : req.chat = Except.ok raw)
    (hm : jsMatchBrace (sanitizeS1 raw) = some mtxt) (hp : jsonParse mtxt = some v) :
    (req.saveErr = none →
      analyzeAuth req u p =
        (⟨200, RespBody.jsonVal v⟩, ⟨true, true, true, [mkDoc req u p v]⟩) ∧
      (∀ k, k ∈ schemaKeys →
        List.lookup k (mkDoc req u p v).fields = jsonLookup v k) ∧
      (∀ k x, k ∈ schemaTopKeys → jsonLookup v k = some x →
        List.lookup k (mkDoc req u p v).fields = some x) ∧
      (jsonLookup v (toL "uid") = none → jsonLookup v (toL "phone") = none →
       jsonLookup v (toL "imageUrl") = none → jsonLookup v (toL "location") = none →
        List.lookup (toL "uid") (mkDoc req u p v).fields = some (Json.str u) ∧
        List.lookup (toL "phone") (mkDoc req u p v).fields = some (Json.str p) ∧
        List.lookup (toL "imageUrl") (mkDoc req u p v).fields =
          some (Json.str (imageUrlOf req.nowMs)) ∧
        List.lookup (toL "location") (mkDoc req u p v).fields =
          some (Json.obj [(toL "latitude", locVal req.latitude),
                          (toL "longitude", locVal req.longitude)]))) ∧
    (∀ m, req.saveErr = some m →
      analyzeAuth req u p = (⟨500, RespBody.errMsg m⟩, effChat) ∧ (500 : Nat) ≠ 200) := by
  obtain ⟨t, ho⟩ := ho
  constructor
  · intro hs
    refine ⟨?_, ?_, ?_, ?_⟩
    · simp [analyzeAuth, analyzeAuthBody, hf, ho, hc, hm, hp, hs]
    · intro k hk
      have hkTop : k ∈ schemaTopKeys := by
        simp only [schemaKeys, List.mem_cons, List.not_mem_nil, or_false] at hk
        rcases hk with rfl | rfl | rfl | rfl <;> simp [schemaTopKeys]
      have hbase : List.lookup k (baseDocFields req u p) = none := by
        simp only [schemaKeys, List.mem_cons, List.not_mem_nil, or_false] at hk
        rcases hk with rfl | rfl | rfl | rfl <;> rfl
      simp only [mkDoc, jsObjLit]
      rw [lookup_filter_keys schemaTopKeys _ k hkTop, lookup_append,
        lookup_filter_none k _ _ hbase]
      exact spreadFields_lookup v k
    · intro k x hkTop hx
      have hextra : List.lookup k (spreadFields v) = some x := by
        rw [spreadFields_lookup]
        exact hx
      simp only [mkDoc, jsObjLit]
      rw [lookup_filter_keys schemaTopKeys _ k hkTop, lookup_append,
        lookup_filter_overridden k x _ _ hextra]
      exact hextra
    · intro h1 h2 h3 h4
      have e1 : List.lookup (toL "uid") (spreadFields v) = none := by
        rw [spreadFields_lookup]
        exact h1
      have e2 : List.lookup (toL "phone") (spreadFields v) = none := by
        rw [spreadFields_lookup]
        exact h2
      have e3 : List.lookup (toL "imageUrl") (spreadFields v) = none := by
        rw [spreadFields_lookup]
        exact h3
      have e4 : List.lookup (toL "location") (spreadFields v) = none := by
        rw [spreadFields_lookup]
        exact h4
      have hfb : (baseDocFields req u p).filter
          (fun kv => (List.lookup kv.1 (spreadFields v)).isNone) = baseDocFields req u p := by
        unfold baseDocFields
        rw [List.filter_cons_of_pos (by simp [e1]), List.filter_cons_of_pos (by simp [e2]),
          List.filter_cons_of_pos (by simp [e3]), List.filter_cons_of_pos (by simp [e4])]
        rfl
      refine ⟨?_, ?_, ?_, ?_⟩
      · simp only [mkDoc, jsObjLit]
        rw [lookup_filter_keys schemaTopKeys _ _ (by decide), hfb, lookup_append]
        rfl
      · simp only [mkDoc, jsObjLit]
        rw [lookup_filter_keys schemaTopKeys _ _ (by decide), hfb, lookup_append]
        rfl
      · simp only [mkDoc, jsObjLit]
        rw [lookup_filter_keys schemaTopKeys _ _ (by decide), hfb, lookup_append]
        rfl
      · simp only [mkDoc, jsObjLit]
        rw [lookup_filter_keys schemaTopKeys _ _ (by decide), hfb, lookup_append]
        rfl
  · intro m hs
    refine ⟨?_, by decide⟩
    simp [analyzeAuth, analyzeAuthBody, hf, ho, hc, hm, hp, hs]

/-- Witness for the amended C9 at a concrete parseable reply that contains
only analysis keys and whose save succeeds. -/
theorem persistence_contract_merge_witness :
    (reqPersist.saveErr = none →
      analyzeAuth reqPersist (toL "u1") (toL "p1") =
        (⟨200, RespBody.jsonVal vPersist⟩,
          ⟨true, true, true, [mkDoc reqPersist (toL "u1") (toL "p1") vPersist]⟩) ∧
      (∀ k, k ∈ schemaKeys →
        List.lookup k (mkDoc reqPersist (toL "u1") (toL "p1") vPersist).fields =
          jsonLookup vPersist k) ∧
      (∀ k x, k ∈ schemaTopKeys → jsonLookup vPersist k = some x →
        List.lookup k (mkDoc reqPersist (toL "u1") (toL "p1") vPersist).fields = some x) ∧
      (jsonLookup vPersist (toL "uid") = none → jsonLookup vPersist (toL "phone") = none →
       jsonLookup vPersist (toL "imageUrl") = none →
       jsonLookup vPersist (toL "location") = none →
        List.lookup (toL "uid") (mkDoc reqPersist (toL "u1") (toL "p1") vPersist).fields =
          some (Json.str (toL "u1")) ∧
        List.lookup (toL "phone") (mkDoc reqPersist (toL "u1") (toL "p1") vPersist).fields =
          some (Json.str (toL "p1")) ∧
        List.lookup (toL "imageUrl") (mkDoc reqPersist (toL "u1") (toL "p1") vPersist).fields =
          some (Json.str (imageUrlOf reqPersist.nowMs)) ∧
        List.lookup (toL "location") (mkDoc reqPersist (toL "u1") (toL "p1") vPersist).fields =
          some (Json.obj [(toL "latitude", locVal reqPersist.latitude),
                          (toL "longitude", locVal reqPersist.longitude)]))) ∧
    (∀ m, reqPersist.saveErr = some m →
      analyzeAuth reqPersist (toL "u1") (toL "p1") = (⟨500, RespBody.errMsg m⟩, effChat) ∧
      (500 : Nat) ≠ 200) :=
  persistence_contract_merge reqPersist (toL "u1") (toL "p1")
    (toL "\x7b\"total_alerts\":3\x7d") (toL "\x7b\"total_alerts\":3\x7d") vPersist
    rfl ⟨toL "text", rfl⟩ rfl rfl rfl

lemma breakSub_eq_none (sep s : List Char) (hno : ¬ ∃ a b, s = a ++ sep ++ b) :
    breakSub sep s = none := by
  induction s with
  | nil =>
    rw [breakSub]
    rw [if_neg ?hn]
    case hn =>
      rw [startsWithL_iff]
      rintro ⟨t, ht⟩
      exact hno ⟨[], t, by simpa using ht⟩
  | cons c rest ih =>
    rw [breakSub]
    rw [if_neg ?hn2]
    case hn2 =>
      rw [startsWithL_iff]
      rintro ⟨t, ht⟩
      exact hno ⟨[], t, by simpa using ht⟩
    rw [ih (fun hab => ?_)]
    obtain ⟨a, b, rfl⟩ := hab
    exact hno ⟨c :: a, b, by simp⟩

lemma breakSub_ne_none_of_split (sep a b : List Char) :
    breakSub sep (a ++ sep ++ b) ≠ none := by
  induction a with
  | nil =>
    rw [show ([] : List Char) ++ sep ++ b = sep ++ b from by simp]
    cases hc : sep ++ b with
    | nil =>
      rw [breakSub, if_pos (by rw [startsWithL_iff]; exact ⟨b, hc.symm⟩)]
      simp
    | cons c rest =>
      rw [breakSub, if_pos (by rw [startsWithL_iff]; exact ⟨b, hc.symm⟩)]
      simp
  | cons c as ih =>
    rw [show ((c :: as) ++ sep ++ b) = c :: (as ++ sep ++ b) from by simp]
    rw [breakSub]
    by_cases hsw : startsWithL sep (c :: (as ++ sep ++ b)) = true
    · rw [if_pos hsw]
      simp
    · rw [if_neg hsw]
      cases hbs : breakSub sep (as ++ sep ++ b) with
      | none => exact absurd hbs ih
      | some p2 =>
        obtain ⟨b2, a2⟩ := p2
        simp

/-- C10: when the authorization header is present but does not contain the
exact substring of the bearer separator (for example a lowercase prefix or a
bare token), token extraction yields nothing and the middleware answers 401
with the No-token error, regardless of the verification oracle. -/
theorem bearer_split_exact (req : ReqAuth) (h : List Char)
    (hh : req.authorization = some h)
    (hno : ¬ ∃ a b, h = a ++ bearerSep ++ b) :
    routeAnalyzeAuth req = (⟨401, RespBody.errMsg (toL "No token")⟩, effNone) := by
  have hbs : breakSub bearerSep h = none := breakSub_eq_none bearerSep h hno
  simp [routeAnalyzeAuth, authenticate, extractIdToken, hh, hbs]

/-- Witness for C10: a lowercase bearer prefix is rejected even though the
verification oracle accepts every token. -/
theorem bearer_split_exact_witness :
    routeAnalyzeAuth { reqNoBlock with authorization := some (toL "bearer abc") } =
      (⟨401, RespBody.errMsg (toL "No token")⟩, effNone) :=
  bearer_split_exact { reqNoBlock with authorization := some (toL "bearer abc") }
    (toL "bearer abc") rfl
    (by
      rintro ⟨a, b, hab⟩
      have h1 : breakSub bearerSep (toL "bearer abc") = none := rfl
      rw [hab] at h1
      exact breakSub_ne_none_of_split bearerSep a b h1)

/-- C7: on every path of every revision the caller receives either the fully
parsed JSON with status 200 or a JSON object containing an `error` string
with a non-200 status; no failure path ever returns a partial analysis
result. -/
theorem error_body_total (req : ReqPlain) (reqA : ReqAuth) :
    totalJsonResp (analyzeV1 req).1 ∧ totalJsonResp (analyzeV2 req).1 ∧
    totalJsonResp (analyzeV4 req).1 ∧ totalJsonResp (routeAnalyzeAuth reqA).1 := by
  obtain ⟨hf, ocr, chat⟩ := req
  obtain ⟨auth, verify, hfA, ocrA, chatA, lat, lng, saveErr, now⟩ := reqA
  refine ⟨?_, ?_, ?_, ?_⟩
  · cases hf
    · simp [analyzeV1, analyzeV1Body, totalJsonResp]
    · cases ocr with
      | error m => simp [analyzeV1, analyzeV1Body, totalJsonResp]
      | ok t =>
        cases chat with
        | error m => simp [analyzeV1, analyzeV1Body, totalJsonResp]
        | ok raw =>
          cases hm : jsMatchBrace (sanitizeV raw) with
          | none => simp [analyzeV1, analyzeV1Body, totalJsonResp, hm]
          | some mtxt =>
            cases hp : jsonParse mtxt with
            | none => simp [analyzeV1, analyzeV1Body, totalJsonResp, hm, hp]
            | some v => simp [analyzeV1, analyzeV1Body, totalJsonResp, hm, hp]
  · cases hf
    · simp [analyzeV2, analyzeV2Body, totalJsonResp]
    · cases ocr with
      | error m => simp [analyzeV2, analyzeV2Body, totalJsonResp]
      | ok t =>
        cases chat with
        | error m => simp [analyzeV2, analyzeV2Body, totalJsonResp]
        | ok raw =>
          cases hm : jsMatchBrace (sanitizeV raw) with
          | none => simp [analyzeV2, analyzeV2Body, totalJsonResp, hm]
          | some mtxt =>
            cases hp : jsonParse mtxt with
            | none => simp [analyzeV2, analyzeV2Body, totalJsonResp, hm, hp]
            | some v => simp [analyzeV2, analyzeV2Body, totalJsonResp, hm, hp]
  · cases hf
    · simp [analyzeV4, analyzeV4Body, totalJsonResp]
    · cases ocr with
      | error m => simp [analyzeV4, analyzeV4Body, totalJsonResp]
      | ok t =>
        cases chat with
        | error m => simp [analyzeV4, analyzeV4Body, totalJsonResp]
        | ok raw =>
          cases hm : jsMatchBrace (sanitizeS2 raw) with
          | none => simp [analyzeV4, analyzeV4Body, totalJsonResp, hm]
          | some mtxt =>
            cases hp : jsonParse mtxt with
            | none => simp [analyzeV4, analyzeV4Body, totalJsonResp, hm, hp]
            | some v => simp [analyzeV4, analyzeV4Body, totalJsonResp, hm, hp]
  · cases hek : extractIdToken auth with
    | none => simp [routeAnalyzeAuth, authenticate, totalJsonResp, hek]
    | some tok =>
      by_cases htk : tok = []
      · simp [routeAnalyzeAuth, authenticate, totalJsonResp, hek, htk]
      · cases hv : verify tok with
        | error e => simp [routeAnalyzeAuth, authenticate, totalJsonResp, hek, htk, hv]
        | ok up =>
          obtain ⟨u, p⟩ := up
          have hroute : routeAnalyzeAuth ⟨auth, verify, hfA, ocrA, chatA, lat, lng, saveErr, now⟩ =
              analyzeAuth ⟨auth, verify, hfA, ocrA, chatA, lat, lng, saveErr, now⟩ u p := by
            simp [routeAnalyzeAuth, authenticate, hek, htk, hv]
          rw [hroute]
          cases hfA
          · simp [analyzeAuth, analyzeAuthBody, totalJsonResp]
          · cases ocrA with
            | error m => simp [analyzeAuth, analyzeAuthBody, totalJsonResp]
            | ok t =>
              cases chatA with
              | error m => simp [analyzeAuth, analyzeAuthBody, totalJsonResp]
              | ok raw =>
                cases hm : jsMatchBrace (sanitizeS1 raw) with
                | none => simp [analyzeAuth, analyzeAuthBody, totalJsonResp, hm]
                | some mtxt =>
                  cases hp : jsonParse mtxt with
                  | none => simp [analyzeAuth, analyzeAuthBody, totalJsonResp, hm, hp]
                  | some v =>
                    cases saveErr with
                    | none => simp [analyzeAuth, analyzeAuthBody, totalJsonResp, hm, hp]
                    | some m => simp [analyzeAuth, analyzeAuthBody, totalJsonResp, hm, hp]

end HealthyIndia
